import Mathlib

set_option maxRecDepth 8000

/-!
Shallow embedding of the krisha deduplication / filter-matching / notification
pipeline (src/scraper_service/src/database.py, scraper.py, notifications.py and
src/telegram_bot/src/notifications.py), together with theorems settling the
spec claims about it.
-/

/-- Rental-type tag `RentalTypes.FULL_APARTMENT` (src/utils/rental_types.py). -/
def FULL_APARTMENT : String := "full_apartment"

/-- Rental-type tag `RentalTypes.ROOM_SHARING` (src/utils/rental_types.py). -/
def ROOM_SHARING : String := "room_sharing"

/-- Python truthiness of an optional numeric value, as tested by
`if filters.get("min_price"):` — `None` and `0` are both falsy. -/
def pyTruthyQ : Option ℚ → Bool
  | none => false
  | some x => x != 0

/-- Python truthiness of an optional string (`if filters.get("city"):`):
`None` and the empty string are falsy. -/
def pyTruthyS : Option String → Bool
  | none => false
  | some s => s != ""

/-- Python truthiness of an optional list (`if filters.get("rooms"):`):
`None` and the empty list are falsy. -/
def pyTruthyL : Option (List Int) → Bool
  | none => false
  | some l => !l.isEmpty

/-- Python `int()` applied to a float: truncation toward zero. -/
def pyInt (q : ℚ) : Int := if 0 ≤ q then ⌊q⌋ else ⌈q⌉

/-- A row of the `apartments` table (class `Apartment`, database.py). -/
structure Apartment where
  id : Nat
  url : String
  price : ℚ
  rooms : Int
  city : String
  square : ℚ
  deriving DecidableEq, Repr

/-- A row of `user_seen_apartments` (class `UserSeenApartment`, database.py).
The ORM declares `apartment_id` as the sole primary key; `user_id` is only an
indexed column. -/
structure UserSeenApartment where
  user_id : Int
  apartment_id : Nat
  apartment_type : Option String
  deriving DecidableEq, Repr

/-- A row of `community_seen_apartments` (class `CommunitySeenApartment`,
database.py). Both the ORM model and migration 319b6a9ab07b give this table the
single-column primary key `apartment_id`. -/
structure CommunitySeenApartment where
  community_id : Int
  apartment_id : Nat
  apartment_type : Option String
  deriving DecidableEq, Repr

/-- A row of `user_seen_telegram_apartments` (class `UserSeenTelegramApartment`,
database.py); its `__table_args__` declare the composite primary key
`(user_id, apartment_id)`. -/
structure UserSeenTelegramApartment where
  user_id : Int
  apartment_id : Nat
  deriving DecidableEq, Repr

/-- A row of `community_seen_telegram_apartments`
(class `CommunitySeenTelegramApartment`, database.py); composite primary key
`(community_id, apartment_id)`. -/
structure CommunitySeenTelegramApartment where
  community_id : Int
  apartment_id : Nat
  deriving DecidableEq, Repr

/-- A row of `telegram_apartments` (class `TelegramApartment`, database.py). -/
structure TelegramApartment where
  id : Nat
  message_id : Int
  channel_username : String
  is_offer : Bool
  is_roommate_offer : Bool
  is_rental_offer : Bool
  monthly_price : Int
  preferred_gender : Option String
  location : String
  contact : String
  city : String
  text : String
  deriving DecidableEq, Repr

/-- `save_apartment` (database.py, lines 457-515): queries for an existing row
with the same `url` and returns its id when found; otherwise inserts a new row
under the autoincrement counter `next_id`. Returns the updated table, the new
counter and the id handed back to the caller. -/
def save_apartment (table : List Apartment) (next_id : Nat) (url : String)
    (price : ℚ) (square : ℚ) (rooms : Int) (city : String) :
    List Apartment × Nat × Nat :=
  match table.find? (fun a => a.url == url) with
  | some existing => (table, next_id, existing.id)
  | none =>
      (table ++ [{ id := next_id, url := url, price := price, rooms := rooms,
                   city := city, square := square }], next_id + 1, next_id)

/-- The optional bounds handed to the full-apartment queries (the keyword
arguments `city, min_price, max_price, min_square, rooms`). -/
structure FullFilters where
  city : Option String := none
  min_price : Option ℚ := none
  max_price : Option ℚ := none
  min_square : Option ℚ := none
  rooms : Option (List Int) := none
  deriving Repr

/-- `get_apartments` (database.py, lines 518-554): each `if bound:` guard
applies a WHERE clause only when the bound is Python-truthy. Clause order
follows the source: city, min_price, max_price, rooms, min_square. -/
def get_apartments (table : List Apartment) (f : FullFilters) : List Apartment :=
  let q := table
  let q := if pyTruthyS f.city then q.filter (fun a => a.city == f.city.getD "") else q
  let q := if pyTruthyQ f.min_price then q.filter (fun a => f.min_price.getD 0 ≤ a.price) else q
  let q := if pyTruthyQ f.max_price then q.filter (fun a => a.price ≤ f.max_price.getD 0) else q
  let q := if pyTruthyL f.rooms then q.filter (fun a => (f.rooms.getD []).contains a.rooms) else q
  let q := if pyTruthyQ f.min_square then q.filter (fun a => f.min_square.getD 0 ≤ a.square) else q
  q

/-- `get_unseen_full_apartments` (database.py, lines 1031-1072): excludes
apartments whose id appears in a `user_seen_apartments` row for this user with
`apartment_type == FULL_APARTMENT`, then applies the truthiness-guarded bound
clauses in source order (city, min_price, max_price, min_square, rooms). -/
def get_unseen_full_apartments (table : List Apartment)
    (user_seen : List UserSeenApartment) (user_id : Int) (f : FullFilters) :
    List Apartment :=
  let seen_ids := (user_seen.filter (fun r =>
      r.user_id == user_id && r.apartment_type == some FULL_APARTMENT)).map
      (fun r => r.apartment_id)
  let q := table.filter (fun a => !seen_ids.contains a.id)
  let q := if pyTruthyS f.city then q.filter (fun a => a.city == f.city.getD "") else q
  let q := if pyTruthyQ f.min_price then q.filter (fun a => f.min_price.getD 0 ≤ a.price) else q
  let q := if pyTruthyQ f.max_price then q.filter (fun a => a.price ≤ f.max_price.getD 0) else q
  let q := if pyTruthyQ f.min_square then q.filter (fun a => f.min_square.getD 0 ≤ a.square) else q
  let q := if pyTruthyL f.rooms then q.filter (fun a => (f.rooms.getD []).contains a.rooms) else q
  q

/-- `get_community_unseen_full_apartments` (database.py, lines 1075-1116). The
seen subquery filters `CommunitySeenApartment.community_id == community_id`
together with `UserSeenApartment.apartment_type == FULL_APARTMENT`; the second
condition references the *user* seen table, so SQLAlchemy renders an implicit
cross join: the subquery yields the community's seen apartment ids when some
`user_seen_apartments` row has `apartment_type == "full_apartment"`, and is
empty otherwise. The bound clauses then follow as in the user variant. -/
def get_community_unseen_full_apartments (table : List Apartment)
    (community_seen : List CommunitySeenApartment)
    (user_seen : List UserSeenApartment) (community_id : Int) (f : FullFilters) :
    List Apartment :=
  let seen_ids :=
    if user_seen.any (fun u => u.apartment_type == some FULL_APARTMENT) then
      (community_seen.filter (fun r => r.community_id == community_id)).map
        (fun r => r.apartment_id)
    else []
  let q := table.filter (fun a => !seen_ids.contains a.id)
  let q := if pyTruthyS f.city then q.filter (fun a => a.city == f.city.getD "") else q
  let q := if pyTruthyQ f.min_price then q.filter (fun a => f.min_price.getD 0 ≤ a.price) else q
  let q := if pyTruthyQ f.max_price then q.filter (fun a => a.price ≤ f.max_price.getD 0) else q
  let q := if pyTruthyQ f.min_square then q.filter (fun a => f.min_square.getD 0 ≤ a.square) else q
  let q := if pyTruthyL f.rooms then q.filter (fun a => (f.rooms.getD []).contains a.rooms) else q
  q

/-- `mark_full_apartments_as_seen_bulk` (database.py, lines 891-922): inserts
one `user_seen_apartments` row per id in a single transaction. Because the
table's primary key is `apartment_id` alone, the commit raises a uniqueness
violation whenever an inserted id already exists in the store or repeats in the
batch; the exception handler rolls the transaction back, leaving the store
unchanged. -/
def mark_full_apartments_as_seen_bulk (store : List UserSeenApartment)
    (user_id : Int) (apartment_ids : List Nat) (apartment_type : String) :
    List UserSeenApartment :=
  if apartment_ids.isEmpty then store
  else if apartment_ids.any (fun i => store.any (fun r => r.apartment_id == i))
      || !(decide apartment_ids.Nodup) then store
  else store ++ apartment_ids.map (fun i =>
    { user_id := user_id, apartment_id := i, apartment_type := some apartment_type })

/-- `mark_community_full_apartments_as_seen_bulk` (database.py, lines 925-958):
same transaction shape over `community_seen_apartments`, whose primary key is
likewise `apartment_id` alone. -/
def mark_community_full_apartments_as_seen_bulk
    (store : List CommunitySeenApartment) (community_id : Int)
    (apartment_ids : List Nat) (apartment_type : String) :
    List CommunitySeenApartment :=
  if apartment_ids.isEmpty then store
  else if apartment_ids.any (fun i => store.any (fun r => r.apartment_id == i))
      || !(decide apartment_ids.Nodup) then store
  else store ++ apartment_ids.map (fun i =>
    { community_id := community_id, apartment_id := i,
      apartment_type := some apartment_type })

/-- `mark_telegram_apartments_as_seen_bulk` (database.py, lines 961-992): the
telegram seen table has the composite primary key `(user_id, apartment_id)`, so
the bulk insert conflicts only on a repeated pair. -/
def mark_telegram_apartments_as_seen_bulk (store : List UserSeenTelegramApartment)
    (user_id : Int) (apartment_ids : List Nat) : List UserSeenTelegramApartment :=
  if apartment_ids.isEmpty then store
  else if apartment_ids.any (fun i => store.any (fun r =>
      r.user_id == user_id && r.apartment_id == i))
      || !(decide apartment_ids.Nodup) then store
  else store ++ apartment_ids.map (fun i => { user_id := user_id, apartment_id := i })

/-- `mark_community_telegram_apartments_as_seen_bulk` (database.py, lines
995-1028): composite primary key `(community_id, apartment_id)`. -/
def mark_community_telegram_apartments_as_seen_bulk
    (store : List CommunitySeenTelegramApartment) (community_id : Int)
    (apartment_ids : List Nat) : List CommunitySeenTelegramApartment :=
  if apartment_ids.isEmpty then store
  else if apartment_ids.any (fun i => store.any (fun r =>
      r.community_id == community_id && r.apartment_id == i))
      || !(decide apartment_ids.Nodup) then store
  else store ++ apartment_ids.map (fun i =>
    { community_id := community_id, apartment_id := i })

/-- The optional bounds handed to the room-sharing queries
(`city, min_price, max_price, gender, roommate_preference`). -/
structure SharingFilters where
  city : Option String := none
  min_price : Option ℚ := none
  max_price : Option ℚ := none
  gender : Option String := none
  roommate_preference : Option String := none
  deriving Repr

/-- The `accepted_genders` list built in the sharing queries (database.py,
lines 1155-1159 and 1210-1214): always `["both", "no"]`, plus `"boy"` when the
filter's gender equals `"male"`, plus `"girl"` when it equals `"female"`. -/
def accepted_genders (gender : Option String) : List String :=
  ["both", "no"] ++
    (if gender == some "male" then ["boy"]
     else if gender == some "female" then ["girl"] else [])

/-- `get_unseen_sharing_apartments` (database.py, lines 1119-1166): keeps
roommate offers not yet seen by this user, then applies the truthiness-guarded
`city` and `max_price` clauses (there is no `min_price` clause in this
variant), and finally restricts `preferred_gender` to the accepted list via SQL
`IN` (a NULL `preferred_gender` matches nothing). -/
def get_unseen_sharing_apartments (table : List TelegramApartment)
    (user_seen : List UserSeenTelegramApartment) (user_id : Int)
    (f : SharingFilters) : List TelegramApartment :=
  let seen_ids := (user_seen.filter (fun r => r.user_id == user_id)).map
    (fun r => r.apartment_id)
  let q := table.filter (fun a => a.is_roommate_offer && !seen_ids.contains a.id)
  let q := if pyTruthyS f.city then q.filter (fun a => a.city == f.city.getD "") else q
  let q := if pyTruthyQ f.max_price then
      q.filter (fun a => a.monthly_price ≤ pyInt (f.max_price.getD 0)) else q
  let q := q.filter (fun a => match a.preferred_gender with
    | some g => (accepted_genders f.gender).contains g
    | none => false)
  q

/-- `get_unseen_community_sharing_apartments` (database.py, lines 1169-1221):
as the user variant, but keyed on the community seen table and with an
additional truthiness-guarded `min_price` clause after `max_price`. -/
def get_unseen_community_sharing_apartments (table : List TelegramApartment)
    (community_seen : List CommunitySeenTelegramApartment) (community_id : Int)
    (f : SharingFilters) : List TelegramApartment :=
  let seen_ids := (community_seen.filter (fun r => r.community_id == community_id)).map
    (fun r => r.apartment_id)
  let q := table.filter (fun a => a.is_roommate_offer && !seen_ids.contains a.id)
  let q := if pyTruthyS f.city then q.filter (fun a => a.city == f.city.getD "") else q
  let q := if pyTruthyQ f.max_price then
      q.filter (fun a => a.monthly_price ≤ pyInt (f.max_price.getD 0)) else q
  let q := if pyTruthyQ f.min_price then
      q.filter (fun a => pyInt (f.min_price.getD 0) ≤ a.monthly_price) else q
  let q := q.filter (fun a => match a.preferred_gender with
    | some g => (accepted_genders f.gender).contains g
    | none => false)
  q

/-- One filter dictionary fed to the optimizer (full-apartment variant, as
produced by `get_all_user_filters` / `get_all_community_full_filters`). -/
structure FullUserFilter where
  city : Option String := none
  min_price : Option ℚ := none
  max_price : Option ℚ := none
  min_square : Option ℚ := none
  rooms : Option (List Int) := none
  deriving Repr

/-- Python `x or 0` on an optional float: `None` and `0.0` give `0`, hence this
coincides with `Option.getD _ 0`. Used for `f["min_price"] or 0` and
`f.get("min_square", 0) or 0` in `optimize_full_filters`. -/
def pyOrZero (o : Option ℚ) : ℚ :=
  match o with
  | some x => x
  | none => 0

/-- Python `f["max_price"] or float("inf")` as consumed by the comprehension
`p for ... if p != inf`: a missing or zero (falsy) max bound becomes infinity
and is then filtered out, i.e. contributes nothing. -/
def pyMaxOrDrop (o : Option ℚ) : Option ℚ :=
  match o with
  | some x => if x = 0 then none else some x
  | none => none

/-- Python `max` over a non-empty list (empty input never occurs in the code). -/
def listMaxQ : List ℚ → ℚ
  | [] => 0
  | x :: xs => xs.foldl max x

/-- Python `min` over a non-empty list. -/
def listMinQ : List ℚ → ℚ
  | [] => 0
  | x :: xs => xs.foldl min x

/-- The city keys of `city_groups` (scraper.py, lines 214-217): one key per
Python-truthy `f["city"]`, in first-occurrence order. -/
def cityKeys (fs : List FullUserFilter) : List String :=
  fs.foldl (fun acc f =>
    match f.city with
    | some c => if c ≠ "" ∧ c ∉ acc then acc ++ [c] else acc
    | none => acc) []

/-- The city group for key `c`: the filters whose `city` equals `c`. -/
def cityGroup (c : String) (fs : List FullUserFilter) : List FullUserFilter :=
  fs.filter (fun f => f.city == some c)

/-- `unique_prices` for one city group (scraper.py, lines 228-244): the sorted
set of all finite values among each filter's `min_price or 0` and
`max_price or inf`, with the (actually unreachable) `[1000000]` default for an
empty collection. -/
def unique_prices (g : List FullUserFilter) : List ℚ :=
  let vals := (g.flatMap (fun f =>
    [pyOrZero f.min_price] ++ (pyMaxOrDrop f.max_price).toList)).dedup
  let sorted := List.insertionSort (· ≤ ·) vals
  if sorted.isEmpty then [1000000] else sorted

/-- `min_square = min(f.get("min_square", 0) or 0 for f in filters)`
(scraper.py, line 255). -/
def city_min_square (g : List FullUserFilter) : ℚ :=
  listMinQ (g.map (fun f => pyOrZero f.min_square))

/-- The room counts one filter requests (scraper.py, lines 247-252): its own
`rooms` list when truthy, else the default `[1, 2, 3, 4]`. -/
def requested_rooms (f : FullUserFilter) : List Int :=
  match f.rooms with
  | some l => if l.isEmpty then [1, 2, 3, 4] else l
  | none => [1, 2, 3, 4]

/-- `sorted(all_rooms)` for one city group: the ascending sorted union of the
requested room counts. -/
def all_rooms_sorted (g : List FullUserFilter) : List Int :=
  List.insertionSort (· ≤ ·) (g.flatMap requested_rooms).dedup

/-- The body of the room-grouping loop in `optimize_full_filters` (scraper.py,
lines 260-267): append the room to the current group while it holds fewer than
2 values (the guard `not current_group or len(current_group) < 2` is
equivalent to `len(current_group) < 2`), else push the group and start a fresh
one. -/
def room_step (acc : List (List Int) × List Int) (room : Int) :
    List (List Int) × List Int :=
  if acc.2.length < 2 then (acc.1, acc.2 ++ [room])
  else (acc.1 ++ [acc.2], [room])

/-- The room-grouping loop of `optimize_full_filters` (scraper.py, lines
257-269, continued): fold the body over the sorted rooms starting from an
empty current group, then append the trailing group if non-empty. -/
def room_groups (rooms : List Int) : List (List Int) :=
  let step := rooms.foldl room_step ([], [])
  if step.2.isEmpty then step.1 else step.1 ++ [step.2]

/-- `optimize_full_filters` (scraper.py, lines 196-299): groups the filters by
truthy city, and per city emits one query `(city, room_group, max_price,
min_square)` for each room sub-group, with `max_price = max(unique_prices)` and
the city-wide minimal square. The early returns for an empty filter list or an
empty city-group dictionary coincide with the empty flatMap. -/
def optimize_full_filters (fs : List FullUserFilter) :
    List (String × List Int × ℚ × ℚ) :=
  (cityKeys fs).flatMap (fun c =>
    let g := cityGroup c fs
    (room_groups (all_rooms_sorted g)).map (fun rg =>
      (c, rg, listMaxQ (unique_prices g), city_min_square g)))

/-- One apartment dictionary handed to the notification manager: the full
variant carries `url` and (when the save succeeded and photos were attached)
an `id`; the sharing dictionaries always carry an `id`. -/
structure NotifApt where
  url : String := ""
  id : Option Nat := none
  deriving DecidableEq, Repr

/-- The state a `NotificationManager` call for one user reads and writes:
the user's Redis seen sets and the two PostgreSQL seen stores
(notifications.py, scraper_service). Redis sets are decoded with
`decode_responses=True`, so they hold strings. -/
structure UserNotifyState where
  redis_full_seen : List String
  redis_sharing_seen : List String
  db_full_seen : List UserSeenApartment
  db_sharing_seen : List UserSeenTelegramApartment
  deriving Repr

/-- Python membership test of an integer apartment id in the decoded Redis set
of strings (`apt["id"] not in sharing_seen_apartments`, notifications.py line
153): an `int` never equals a `str`, so the membership is always false. -/
def intIdInStringSet (_id : Nat) (_s : List String) : Bool := false

/-- `NotificationManager.notify_user_new_apartments` (scraper_service
notifications.py, lines 83-194). First the user's activity is checked over
HTTP; `activeStatus` is `some true` exactly when the request succeeded with an
OK response whose JSON has `is_active` true — in every other case (inactive
user, non-OK response, request exception) the method returns at once. Otherwise
the branch for `apartment_type` filters out Redis-seen entries, publishes one
message on the `new_apartments` channel, adds the Redis marks (`sadd` stores
`str(id)` for sharing ids), and bulk-marks the ids in PostgreSQL. Returns the
final state and the list of published messages. -/
def notify_user_new_apartments (st : UserNotifyState) (activeStatus : Option Bool)
    (user_id : Int) (apartments : List NotifApt) (apartment_type : String) :
    UserNotifyState × List (List NotifApt) :=
  if activeStatus ≠ some true then (st, [])
  else if apartment_type == FULL_APARTMENT then
    let full_new := apartments.filter (fun a => !st.redis_full_seen.contains a.url)
    let published := if !full_new.isEmpty then [full_new] else []
    let redis_full := if !full_new.isEmpty then
        st.redis_full_seen ++ full_new.map (fun a => a.url)
      else st.redis_full_seen
    let apartment_ids := full_new.filterMap (fun a => a.id)
    let db_full := if !apartment_ids.isEmpty then
        mark_full_apartments_as_seen_bulk st.db_full_seen user_id apartment_ids
          apartment_type
      else st.db_full_seen
    ({ st with redis_full_seen := redis_full, db_full_seen := db_full }, published)
  else if apartment_type == ROOM_SHARING then
    let sharing_new := apartments.filter (fun a =>
      !intIdInStringSet (a.id.getD 0) st.redis_sharing_seen)
    let published := if !sharing_new.isEmpty then [sharing_new] else []
    let redis_sharing := if !sharing_new.isEmpty then
        st.redis_sharing_seen ++ sharing_new.filterMap (fun a =>
          a.id.map (fun i => toString i))
      else st.redis_sharing_seen
    let apartment_ids := sharing_new.filterMap (fun a => a.id)
    let db_sharing := if !apartment_ids.isEmpty then
        mark_telegram_apartments_as_seen_bulk st.db_sharing_seen user_id apartment_ids
      else st.db_sharing_seen
    ({ st with redis_sharing_seen := redis_sharing, db_sharing_seen := db_sharing },
      published)
  else (st, [])

/-- The state a community notification call reads and writes. -/
structure CommunityNotifyState where
  redis_full_seen : List String
  redis_sharing_seen : List String
  db_full_seen : List CommunitySeenApartment
  db_sharing_seen : List CommunitySeenTelegramApartment
  deriving Repr

/-- `NotificationManager.notify_community_new_apartments` (scraper_service
notifications.py, lines 196-349). The broker publish of the message is wrapped
in `try: ... except Exception as e: logging.error(e)`: when the publish raises,
the exception is logged and swallowed, and execution continues. `publishOk`
records whether the publish succeeded; the published list is empty when it
failed. The Redis marks and the PostgreSQL bulk marks are performed after that
try/except on every path through the branch. -/
def notify_community_new_apartments (st : CommunityNotifyState) (publishOk : Bool)
    (community_id : Int) (apartments : List NotifApt) (apartment_type : String) :
    CommunityNotifyState × List (List NotifApt) :=
  if apartment_type == FULL_APARTMENT then
    let full_new := apartments.filter (fun a => !st.redis_full_seen.contains a.url)
    let published := if !full_new.isEmpty && publishOk then [full_new] else []
    let redis_full := if !full_new.isEmpty then
        st.redis_full_seen ++ full_new.map (fun a => a.url)
      else st.redis_full_seen
    let apartment_ids := full_new.filterMap (fun a => a.id)
    let db_full := if !apartment_ids.isEmpty then
        mark_community_full_apartments_as_seen_bulk st.db_full_seen community_id
          apartment_ids apartment_type
      else st.db_full_seen
    ({ st with redis_full_seen := redis_full, db_full_seen := db_full }, published)
  else if apartment_type == ROOM_SHARING then
    let sharing_new := apartments.filter (fun a =>
      !intIdInStringSet (a.id.getD 0) st.redis_sharing_seen)
    let published := if !sharing_new.isEmpty && publishOk then [sharing_new] else []
    let redis_sharing := if !sharing_new.isEmpty then
        st.redis_sharing_seen ++ sharing_new.filterMap (fun a =>
          a.id.map (fun i => toString i))
      else st.redis_sharing_seen
    let apartment_ids := sharing_new.filterMap (fun a => a.id)
    let db_sharing := if !apartment_ids.isEmpty then
        mark_community_telegram_apartments_as_seen_bulk st.db_sharing_seen
          community_id apartment_ids
      else st.db_sharing_seen
    ({ st with redis_sharing_seen := redis_sharing, db_sharing_seen := db_sharing },
      published)
  else (st, [])

/-- The header of the first room-sharing digest message
(telegram_bot notifications.py, line 227). -/
def firstHeader : String :=
  "🆕 Найдены новые объявления о подселении по вашим критериям:\n\n"

/-- The header every continuation message starts with
(telegram_bot notifications.py, line 250). -/
def contHeader : String := "🆕 Новые объявления о подселении (продолжение):\n\n"

/-- The stale first-header string tested by the final-send guard
(telegram_bot notifications.py, line 256); it differs from `firstHeader`. -/
def staleHeader : String := "🆕 Новые объявления о подселении:\n\n"

/-- The message-building loop of `_process_room_sharing_notification`
(telegram_bot notifications.py, lines 232-252): for each formatted listing
text, append it to the current message when the result stays within
`maxLen` (`MAX_MESSAGE_LENGTH`), else send the current message and start a new
one as `contHeader ++ text` — the restart is not length-checked. Returns the
sent messages and the final current message. -/
def chunkLoop (maxLen : Nat) (cur : String) (texts : List String) :
    List String × String :=
  match texts with
  | [] => ([], cur)
  | t :: rest =>
    if cur.length + t.length ≤ maxLen then chunkLoop maxLen (cur ++ t) rest
    else
      let r := chunkLoop maxLen (contHeader ++ t) rest
      (cur :: r.1, r.2)

/-- The multi-listing branch of `_process_room_sharing_notification`
(telegram_bot notifications.py, lines 226-261): runs the loop starting from
`firstHeader` and finally sends the last current message unless it equals one
of the two guard strings. Returns every message sent, in order. -/
def sendRoomSharingChunks (maxLen : Nat) (texts : List String) : List String :=
  let r := chunkLoop maxLen firstHeader texts
  if r.2 == staleHeader || r.2 == contHeader then r.1 else r.1 ++ [r.2]

/-- Membership in a conditionally applied filter clause. -/
theorem mem_ite_filter {α : Type} (b : Bool) (p : α → Bool) (q : List α) (a : α) :
    (a ∈ if b then q.filter p else q) ↔ a ∈ q ∧ (b = true → p a = true) := by
  cases b <;> simp [List.mem_filter]

/-- C1: the claim says the unseen-apartments query never returns a listing
already seen-marked for the recipient. For a community recipient this fails:
with `community_seen_apartments` holding the mark `(7, 1)` and
`user_seen_apartments` empty, the community unseen query returns apartment 1
anyway, because its seen subquery cross-joins the user seen table and is empty
whenever no user seen row of type full_apartment exists. -/
theorem get_community_unseen_returns_already_seen_listing :
    (⟨7, 1, some FULL_APARTMENT⟩ : CommunitySeenApartment) ∈
        ([⟨7, 1, some FULL_APARTMENT⟩] : List CommunitySeenApartment) ∧
      get_community_unseen_full_apartments
          [{ id := 1, url := "https://krisha.kz/a/1", price := 100000, rooms := 2,
             city := "astana", square := 40 }]
          [⟨7, 1, some FULL_APARTMENT⟩] [] 7 {} =
        [{ id := 1, url := "https://krisha.kz/a/1", price := 100000, rooms := 2,
           city := "astana", square := 40 }] := by
  exact ⟨List.mem_singleton.mpr rfl, rfl⟩

/-- C2: the claim says a failed broker publish must leave the listings
unmarked. Evaluating `notify_community_new_apartments` at a failing publish
(`publishOk = false`) for community 5 and one fresh full-apartment listing:
nothing is published, yet the listing's url is added to the community's Redis
seen set and its id is bulk-inserted into `community_seen_apartments`, because
the publish exception is logged and swallowed before the marking code runs. -/
theorem notify_community_marks_seen_despite_publish_failure :
    (notify_community_new_apartments ⟨[], [], [], []⟩ false 5
        [{ url := "https://krisha.kz/a/9", id := some 9 }] FULL_APARTMENT).2 = [] ∧
      (notify_community_new_apartments ⟨[], [], [], []⟩ false 5
          [{ url := "https://krisha.kz/a/9", id := some 9 }]
          FULL_APARTMENT).1.redis_full_seen = ["https://krisha.kz/a/9"] ∧
      (notify_community_new_apartments ⟨[], [], [], []⟩ false 5
          [{ url := "https://krisha.kz/a/9", id := some 9 }]
          FULL_APARTMENT).1.db_full_seen = [⟨5, 9, some FULL_APARTMENT⟩] := by
  exact ⟨rfl, rfl, rfl⟩

/-- C3: the claim says the seen store is keyed by the composite
`(recipientId, recipientKind, listingId)`, so two different recipients may both
mark the same listing. Evaluating the code: user 1 marks apartment 5, then
user 2 marks apartment 5 — the second bulk insert violates the table's actual
primary key (`apartment_id` alone) and is rolled back, so user 2's mark is not
persisted. (Re-marking the same pair is indeed a no-op, as the claim states.) -/
theorem second_recipient_seen_mark_rolled_back :
    mark_full_apartments_as_seen_bulk
        (mark_full_apartments_as_seen_bulk [] 1 [5] FULL_APARTMENT) 2 [5]
        FULL_APARTMENT = [⟨1, 5, some FULL_APARTMENT⟩] ∧
      ∀ r ∈ mark_full_apartments_as_seen_bulk
          (mark_full_apartments_as_seen_bulk [] 1 [5] FULL_APARTMENT) 2 [5]
          FULL_APARTMENT, r.user_id ≠ 2 := by
  refine ⟨rfl, ?_⟩
  decide

/-- C9: a user recipient that is not active, or whose activity status could not
be determined (`activeStatus ≠ some true`), makes
`notify_user_new_apartments` return at once: no message is published and no
Redis or database seen-mark is written — the state comes back unchanged. -/
theorem inactive_user_notification_is_noop (st : UserNotifyState)
    (activeStatus : Option Bool) (user_id : Int) (apartments : List NotifApt)
    (apartment_type : String) (h : activeStatus ≠ some true) :
    notify_user_new_apartments st activeStatus user_id apartments apartment_type
      = (st, []) := by
  simp [notify_user_new_apartments, h]

/-- Witness for C9 at a concrete inactive user. -/
theorem inactive_user_notification_is_noop_witness :
    ((some false : Option Bool) ≠ some true) ∧
      notify_user_new_apartments ⟨["u"], [], [], []⟩ (some false) 3
        [{ url := "u", id := some 1 }] FULL_APARTMENT = (⟨["u"], [], [], []⟩, []) :=
  ⟨by decide, inactive_user_notification_is_noop _ _ _ _ _ (by decide)⟩

/-- C10: a zero-valued numeric bound behaves exactly like an absent bound, for
each of `min_price`, `max_price` and `min_square`, in both
`get_unseen_full_apartments` and `get_apartments`: Python's `if bound:` guard
treats `0` as falsy, so the corresponding WHERE clause is skipped. -/
theorem zero_bound_equals_absent_bound (table : List Apartment)
    (user_seen : List UserSeenApartment) (u : Int) (f : FullFilters) :
    (get_unseen_full_apartments table user_seen u { f with min_price := some 0 } =
        get_unseen_full_apartments table user_seen u { f with min_price := none }) ∧
    (get_unseen_full_apartments table user_seen u { f with max_price := some 0 } =
        get_unseen_full_apartments table user_seen u { f with max_price := none }) ∧
    (get_unseen_full_apartments table user_seen u { f with min_square := some 0 } =
        get_unseen_full_apartments table user_seen u { f with min_square := none }) ∧
    (get_apartments table { f with min_price := some 0 } =
        get_apartments table { f with min_price := none }) ∧
    (get_apartments table { f with max_price := some 0 } =
        get_apartments table { f with max_price := none }) ∧
    (get_apartments table { f with min_square := some 0 } =
        get_apartments table { f with min_square := none }) := by
  refine ⟨?_, ?_, ?_, ?_, ?_, ?_⟩ <;>
    simp [get_unseen_full_apartments, get_apartments, pyTruthyQ]

/-- C7: ingestion is idempotent on the url key. Starting from a table with no
row for `url`, calling `save_apartment` twice with that url (the second call's
other fields may differ) leaves exactly one row for the url, and the second
call returns the same id as the first. -/
theorem save_apartment_idempotent (table : List Apartment) (next_id : Nat)
    (url : String) (p1 s1 : ℚ) (r1 : Int) (c1 : String) (p2 s2 : ℚ) (r2 : Int)
    (c2 : String) (hfresh : ∀ a ∈ table, a.url ≠ url) :
    (((save_apartment (save_apartment table next_id url p1 s1 r1 c1).1
          (save_apartment table next_id url p1 s1 r1 c1).2.1 url p2 s2 r2 c2).1.filter
        (fun a => a.url == url)).length = 1) ∧
      (save_apartment (save_apartment table next_id url p1 s1 r1 c1).1
          (save_apartment table next_id url p1 s1 r1 c1).2.1 url p2 s2 r2 c2).2.2 =
        (save_apartment table next_id url p1 s1 r1 c1).2.2 := by
  have hfind : table.find? (fun a => a.url == url) = none := by
    rw [List.find?_eq_none]
    intro a ha
    simpa using hfresh a ha
  have hfilter : table.filter (fun a => a.url == url) = [] := by
    rw [List.filter_eq_nil_iff]
    intro a ha
    simpa using hfresh a ha
  have hx : save_apartment table next_id url p1 s1 r1 c1 =
      (table ++ [⟨next_id, url, p1, r1, c1, s1⟩], next_id + 1, next_id) := by
    simp [save_apartment, hfind]
  have hfind2 : (table ++ [(⟨next_id, url, p1, r1, c1, s1⟩ : Apartment)]).find?
      (fun a => a.url == url) = some ⟨next_id, url, p1, r1, c1, s1⟩ := by
    rw [List.find?_append, hfind]
    simp
  rw [hx]
  constructor
  · simp only [save_apartment, hfind2, List.filter_append, hfilter]
    simp
  · simp [save_apartment, hfind2, hx]

/-- Witness for C7 on an initially empty table. -/
theorem save_apartment_idempotent_witness :
    (∀ a ∈ ([] : List Apartment), a.url ≠ "https://krisha.kz/a/1") ∧
      ((((save_apartment (save_apartment [] 1 "https://krisha.kz/a/1" 100 40 2 "astana").1
            (save_apartment [] 1 "https://krisha.kz/a/1" 100 40 2 "astana").2.1
            "https://krisha.kz/a/1" 200 41 3 "almaty").1.filter
          (fun a => a.url == "https://krisha.kz/a/1")).length = 1) ∧
        (save_apartment (save_apartment [] 1 "https://krisha.kz/a/1" 100 40 2 "astana").1
            (save_apartment [] 1 "https://krisha.kz/a/1" 100 40 2 "astana").2.1
            "https://krisha.kz/a/1" 200 41 3 "almaty").2.2 =
          (save_apartment [] 1 "https://krisha.kz/a/1" 100 40 2 "astana").2.2) :=
  ⟨by simp, save_apartment_idempotent [] 1 "https://krisha.kz/a/1" 100 40 2 "astana"
    200 41 3 "almaty" (by simp)⟩

/-- Gender compatibility as the spec states it: `both` and unspecified (`no`)
are always accepted, `boy` exactly for a male filter gender, `girl` exactly for
a female one. -/
def genderCompatible (filter_gender : Option String) (pg : Option String) : Prop :=
  pg = some "both" ∨ pg = some "no" ∨
    (filter_gender = some "male" ∧ pg = some "boy") ∨
    (filter_gender = some "female" ∧ pg = some "girl")

/-- The gender clause of the sharing queries agrees with `genderCompatible`. -/
theorem gender_clause_iff (g : Option String) (pg : Option String) :
    (match pg with
      | some x => (accepted_genders g).contains x
      | none => false) = true ↔ genderCompatible g pg := by
  cases pg with
  | none => simp [genderCompatible]
  | some x =>
      by_cases hm : g = some "male"
      · subst hm
        simp [accepted_genders, genderCompatible]
      · by_cases hf : g = some "female"
        · subst hf
          simp [accepted_genders, genderCompatible]
        · have h1 : (g == some "male") = false := by
            simpa using hm
          have h2 : (g == some "female") = false := by
            simpa using hf
          simp [accepted_genders, genderCompatible, h1, h2, hm, hf]

/-- The seen-exclusion clause of the user sharing query, as a statement over
rows. -/
theorem user_seen_clause_iff (us : List UserSeenTelegramApartment) (u : Int)
    (i : Nat) :
    ((us.filter (fun r => r.user_id == u)).map
        (fun r => r.apartment_id)).contains i = false ↔
      ∀ r ∈ us, r.user_id = u → r.apartment_id ≠ i := by
  constructor
  · intro h r hr hru hid
    have : i ∈ (us.filter (fun r => r.user_id == u)).map (fun r => r.apartment_id) :=
      List.mem_map.mpr ⟨r, List.mem_filter.mpr ⟨hr, by simpa using hru⟩, hid⟩
    simp [this] at h
  · intro h
    by_contra hc
    have : i ∈ (us.filter (fun r => r.user_id == u)).map (fun r => r.apartment_id) := by
      have := eq_true_of_ne_false hc
      simpa using this
    obtain ⟨r, hr, hid⟩ := List.mem_map.mp this
    obtain ⟨hr', hru⟩ := List.mem_filter.mp hr
    exact h r hr' (by simpa using hru) hid

/-- The seen-exclusion clause of the community sharing query. -/
theorem community_seen_clause_iff (cs : List CommunitySeenTelegramApartment)
    (c : Int) (i : Nat) :
    ((cs.filter (fun r => r.community_id == c)).map
        (fun r => r.apartment_id)).contains i = false ↔
      ∀ r ∈ cs, r.community_id = c → r.apartment_id ≠ i := by
  constructor
  · intro h r hr hru hid
    have : i ∈ (cs.filter (fun r => r.community_id == c)).map (fun r => r.apartment_id) :=
      List.mem_map.mpr ⟨r, List.mem_filter.mpr ⟨hr, by simpa using hru⟩, hid⟩
    simp [this] at h
  · intro h
    by_contra hc
    have : i ∈ (cs.filter (fun r => r.community_id == c)).map (fun r => r.apartment_id) := by
      have := eq_true_of_ne_false hc
      simpa using this
    obtain ⟨r, hr, hid⟩ := List.mem_map.mp this
    obtain ⟨hr', hru⟩ := List.mem_filter.mp hr
    exact h r hr' (by simpa using hru) hid

/-- C4 (amended): a candidate telegram listing is returned by the unseen
sharing query iff it is an unseen roommate offer satisfying the truthy `city`
and `max_price` bounds and the gender-compatibility rule — and, only for the
community variant, additionally the truthy `min_price` bound; the user variant
has no `min_price` clause at all. -/
theorem sharing_query_characterization (table : List TelegramApartment)
    (user_seen : List UserSeenTelegramApartment)
    (community_seen : List CommunitySeenTelegramApartment) (u cid : Int)
    (f : SharingFilters) (a : TelegramApartment) :
    (a ∈ get_unseen_sharing_apartments table user_seen u f ↔
      a ∈ table ∧ a.is_roommate_offer = true ∧
        (∀ r ∈ user_seen, r.user_id = u → r.apartment_id ≠ a.id) ∧
        (pyTruthyS f.city = true → a.city = f.city.getD "") ∧
        (pyTruthyQ f.max_price = true →
          a.monthly_price ≤ pyInt (f.max_price.getD 0)) ∧
        genderCompatible f.gender a.preferred_gender) ∧
    (a ∈ get_unseen_community_sharing_apartments table community_seen cid f ↔
      a ∈ table ∧ a.is_roommate_offer = true ∧
        (∀ r ∈ community_seen, r.community_id = cid → r.apartment_id ≠ a.id) ∧
        (pyTruthyS f.city = true → a.city = f.city.getD "") ∧
        (pyTruthyQ f.max_price = true →
          a.monthly_price ≤ pyInt (f.max_price.getD 0)) ∧
        (pyTruthyQ f.min_price = true →
          pyInt (f.min_price.getD 0) ≤ a.monthly_price) ∧
        genderCompatible f.gender a.preferred_gender) := by
  constructor
  · simp only [get_unseen_sharing_apartments, mem_ite_filter, List.mem_filter,
      gender_clause_iff]
    simp only [Bool.and_eq_true, Bool.not_eq_true', user_seen_clause_iff,
      beq_iff_eq, decide_eq_true_eq]
    constructor
    · rintro ⟨⟨⟨⟨ha, hro, hseen⟩, hcity⟩, hmax⟩, hg⟩
      exact ⟨ha, hro, hseen, hcity, hmax, hg⟩
    · rintro ⟨ha, hro, hseen, hcity, hmax, hg⟩
      exact ⟨⟨⟨⟨ha, hro, hseen⟩, hcity⟩, hmax⟩, hg⟩
  · simp only [get_unseen_community_sharing_apartments, mem_ite_filter,
      List.mem_filter, gender_clause_iff]
    simp only [Bool.and_eq_true, Bool.not_eq_true', community_seen_clause_iff,
      beq_iff_eq, decide_eq_true_eq]
    constructor
    · rintro ⟨⟨⟨⟨⟨ha, hro, hseen⟩, hcity⟩, hmax⟩, hmin⟩, hg⟩
      exact ⟨ha, hro, hseen, hcity, hmax, hmin, hg⟩
    · rintro ⟨ha, hro, hseen, hcity, hmax, hmin, hg⟩
      exact ⟨⟨⟨⟨⟨ha, hro, hseen⟩, hcity⟩, hmax⟩, hmin⟩, hg⟩

/-- Counterexample to C4 as stated: the claim requires `minPrice <= price` for
every set bound, but the user-recipient sharing query has no `min_price`
clause. With a filter whose `min_price` is 50000, an unseen roommate offer
priced 10000 is returned even though the bound is set and violated. -/
theorem sharing_min_price_ignored :
    pyTruthyQ (SharingFilters.min_price
        { city := some "almaty", min_price := some 50000,
          max_price := some 100000, gender := some "male" }) = true ∧
      (⟨1, 10, "ch", true, true, false, 10000, some "both", "loc", "c", "almaty",
          "txt"⟩ : TelegramApartment) ∈
        get_unseen_sharing_apartments
          [⟨1, 10, "ch", true, true, false, 10000, some "both", "loc", "c",
            "almaty", "txt"⟩] [] 3
          { city := some "almaty", min_price := some 50000,
            max_price := some 100000, gender := some "male" } ∧
      ¬(pyInt ((SharingFilters.min_price
          { city := some "almaty", min_price := some 50000,
            max_price := some 100000, gender := some "male" }).getD 0) ≤
        (10000 : Int)) := by
  refine ⟨rfl, ?_, ?_⟩
  · decide
  · decide

/-- The seed of a max-fold is bounded by the fold. -/
theorem le_foldl_max (a : ℚ) (l : List ℚ) : a ≤ l.foldl max a := by
  induction l generalizing a with
  | nil => simp
  | cons x xs ih => exact le_trans (le_max_left a x) (ih (max a x))

/-- Every member of the list is bounded by the max-fold. -/
theorem mem_le_foldl_max (a : ℚ) (l : List ℚ) (x : ℚ) (hx : x ∈ l) :
    x ≤ l.foldl max a := by
  induction l generalizing a with
  | nil => cases hx
  | cons y ys ih =>
    rcases List.mem_cons.mp hx with h | h
    · subst h
      exact le_trans (le_max_right a x) (le_foldl_max _ _)
    · exact ih (max a y) h

/-- A max-fold is its seed or one of the list members. -/
theorem foldl_max_mem (a : ℚ) (l : List ℚ) : l.foldl max a = a ∨ l.foldl max a ∈ l := by
  induction l generalizing a with
  | nil => exact Or.inl rfl
  | cons y ys ih =>
    rcases ih (max a y) with h | h
    · rcases max_choice a y with hm | hm
      · exact Or.inl (by rw [List.foldl_cons, h, hm])
      · exact Or.inr (by rw [List.foldl_cons, h, hm]; exact List.mem_cons_self _ _)
    · exact Or.inr (List.mem_cons_of_mem _ h)

/-- Every member of a non-empty list is bounded by `listMaxQ`. -/
theorem le_listMaxQ (l : List ℚ) (x : ℚ) (hx : x ∈ l) : x ≤ listMaxQ l := by
  cases l with
  | nil => cases hx
  | cons y ys =>
    rcases List.mem_cons.mp hx with h | h
    · subst h
      exact le_foldl_max _ _
    · exact mem_le_foldl_max _ _ _ h

/-- `listMaxQ` of a non-empty list is one of its members. -/
theorem listMaxQ_mem (l : List ℚ) (h : l ≠ []) : listMaxQ l ∈ l := by
  cases l with
  | nil => exact absurd rfl h
  | cons y ys =>
    show ys.foldl max y ∈ y :: ys
    rcases foldl_max_mem y ys with h' | h'
    · rw [h']
      exact List.mem_cons_self _ _
    · exact List.mem_cons_of_mem _ h'

/-- Membership in the optimizer's city keys: exactly the non-empty cities
declared by some filter. -/
theorem mem_cityKeys (fs : List FullUserFilter) (c : String) :
    c ∈ cityKeys fs ↔ c ≠ "" ∧ ∃ f ∈ fs, f.city = some c := by
  have aux : ∀ (fs : List FullUserFilter) (acc : List String),
      c ∈ fs.foldl (fun acc f =>
        match f.city with
        | some c' => if c' ≠ "" ∧ c' ∉ acc then acc ++ [c'] else acc
        | none => acc) acc ↔
        c ∈ acc ∨ (c ≠ "" ∧ ∃ f ∈ fs, f.city = some c) := by
    intro fs
    induction fs with
    | nil => intro acc; simp
    | cons f fs' ih =>
      intro acc
      rw [List.foldl_cons, ih]
      cases hc : f.city with
      | none => simp [hc]
      | some c' =>
        dsimp only
        by_cases hcond : c' ≠ "" ∧ c' ∉ acc
        · rw [if_pos hcond]
          simp only [List.mem_append, List.mem_singleton]
          constructor
          · rintro (⟨h | h⟩ | ⟨hne, g, hg, hgc⟩)
            · exact Or.inl h
            · subst h
              exact Or.inr ⟨hcond.1, f, List.mem_cons_self _ _, hc⟩
            · exact Or.inr ⟨hne, g, List.mem_cons_of_mem _ hg, hgc⟩
          · rintro (h | ⟨hne, g, hg, hgc⟩)
            · exact Or.inl (Or.inl h)
            · rcases List.mem_cons.mp hg with h | h
              · subst h
                rw [hc] at hgc
                exact Or.inl (Or.inr (Option.some_injective _ hgc).symm)
              · exact Or.inr ⟨hne, g, h, hgc⟩
        · rw [if_neg hcond]
          push_neg at hcond
          constructor
          · rintro (h | ⟨hne, g, hg, hgc⟩)
            · exact Or.inl h
            · exact Or.inr ⟨hne, g, List.mem_cons_of_mem _ hg, hgc⟩
          · rintro (h | ⟨hne, g, hg, hgc⟩)
            · exact Or.inl h
            · rcases List.mem_cons.mp hg with h | h
              · subst h
                rw [hc] at hgc
                have hcc : c' = c := Option.some_injective _ hgc
                subst hcc
                exact Or.inl (hcond hne)
              · exact Or.inr ⟨hne, g, h, hgc⟩
  rw [cityKeys, aux]
  simp

/-- The optimizer's city keys are pairwise distinct. -/
theorem cityKeys_nodup (fs : List FullUserFilter) : (cityKeys fs).Nodup := by
  have aux : ∀ (fs : List FullUserFilter) (acc : List String), acc.Nodup →
      (fs.foldl (fun acc f =>
        match f.city with
        | some c' => if c' ≠ "" ∧ c' ∉ acc then acc ++ [c'] else acc
        | none => acc) acc).Nodup := by
    intro fs
    induction fs with
    | nil => intro acc h; simpa using h
    | cons f fs' ih =>
      intro acc h
      rw [List.foldl_cons]
      apply ih
      cases hc : f.city with
      | none => exact h
      | some c' =>
        dsimp only
        by_cases hcond : c' ≠ "" ∧ c' ∉ acc
        · rw [if_pos hcond]
          simp [List.nodup_append, h, hcond.2]
        · rw [if_neg hcond]
          exact h
  exact aux fs [] List.nodup_nil

/-- A city key always has a non-empty city group. -/
theorem cityGroup_ne_nil (fs : List FullUserFilter) (c : String)
    (h : c ∈ cityKeys fs) : cityGroup c fs ≠ [] := by
  obtain ⟨-, f, hf, hfc⟩ := (mem_cityKeys fs c).mp h
  intro hnil
  have : f ∈ cityGroup c fs := List.mem_filter.mpr ⟨hf, by simp [hfc]⟩
  rw [hnil] at this
  cases this

/-- Decomposition of membership in the optimizer's output. -/
theorem mem_optimize_full_filters (fs : List FullUserFilter) (c : String)
    (rg : List Int) (mp ms : ℚ) :
    (c, rg, mp, ms) ∈ optimize_full_filters fs ↔
      c ∈ cityKeys fs ∧ rg ∈ room_groups (all_rooms_sorted (cityGroup c fs)) ∧
        mp = listMaxQ (unique_prices (cityGroup c fs)) ∧
        ms = city_min_square (cityGroup c fs) := by
  unfold optimize_full_filters
  rw [List.mem_flatMap]
  constructor
  · rintro ⟨c', hc', hmem⟩
    rw [List.mem_map] at hmem
    obtain ⟨rg', hrg', heq⟩ := hmem
    simp only [Prod.mk.injEq] at heq
    obtain ⟨h1, h2, h3, h4⟩ := heq
    subst h1
    subst h2
    subst h3
    subst h4
    exact ⟨hc', hrg', rfl, rfl⟩
  · rintro ⟨hc, hrg, hmp, hms⟩
    exact ⟨c, hc, List.mem_map.mpr ⟨rg, hrg, by rw [hmp, hms]⟩⟩

/-- For a non-empty city group, `unique_prices` never falls back to its
default, and its members are exactly the finite price values contributed by
the group's filters. -/
theorem unique_prices_spec (g : List FullUserFilter) (hg : g ≠ []) :
    unique_prices g ≠ [] ∧ ∀ x, x ∈ unique_prices g ↔
      ∃ f ∈ g, x = pyOrZero f.min_price ∨ pyMaxOrDrop f.max_price = some x := by
  obtain ⟨f0, g', rfl⟩ := List.exists_cons_of_ne_nil hg
  have hmem0 : pyOrZero f0.min_price ∈
      ((f0 :: g').flatMap (fun f =>
        [pyOrZero f.min_price] ++ (pyMaxOrDrop f.max_price).toList)).dedup := by
    rw [List.mem_dedup, List.mem_flatMap]
    exact ⟨f0, List.mem_cons_self _ _, by simp⟩
  have hsmem : pyOrZero f0.min_price ∈ List.insertionSort (· ≤ ·)
      ((f0 :: g').flatMap (fun f =>
        [pyOrZero f.min_price] ++ (pyMaxOrDrop f.max_price).toList)).dedup :=
    (List.mem_insertionSort _).mpr hmem0
  have hne := List.ne_nil_of_mem hsmem
  have hemp : (List.insertionSort (· ≤ ·)
      ((f0 :: g').flatMap (fun f =>
        [pyOrZero f.min_price] ++ (pyMaxOrDrop f.max_price).toList)).dedup).isEmpty =
      false := by
    simpa [List.isEmpty_iff] using hne
  have hup : unique_prices (f0 :: g') = List.insertionSort (· ≤ ·)
      ((f0 :: g').flatMap (fun f =>
        [pyOrZero f.min_price] ++ (pyMaxOrDrop f.max_price).toList)).dedup := by
    unfold unique_prices
    simp only [hemp, Bool.false_eq_true, if_false]
  rw [hup]
  refine ⟨hne, fun x => ?_⟩
  rw [List.mem_insertionSort, List.mem_dedup, List.mem_flatMap]
  constructor
  · rintro ⟨f, hf, hx⟩
    rcases List.mem_append.mp hx with hx | hx
    · exact ⟨f, hf, Or.inl (List.mem_singleton.mp hx)⟩
    · exact ⟨f, hf, Or.inr (by simpa [Option.mem_toList, Option.mem_def] using hx)⟩
  · rintro ⟨f, hf, hx | hx⟩
    · exact ⟨f, hf, List.mem_append.mpr (Or.inl (List.mem_singleton.mpr hx))⟩
    · exact ⟨f, hf, List.mem_append.mpr (Or.inr (by
        simpa [Option.mem_toList, Option.mem_def] using hx))⟩

/-- When every filter in a list declares a `min_square`, the `or 0` projection
coincides with collecting the declared bounds. -/
theorem map_pyOrZero_min_square_eq (g : List FullUserFilter)
    (hall : ∀ f ∈ g, f.min_square.isSome) :
    g.map (fun f => pyOrZero f.min_square) = g.filterMap (fun f => f.min_square) := by
  induction g with
  | nil => rfl
  | cons f g' ih =>
    obtain ⟨s, hs⟩ := Option.isSome_iff_exists.mp (hall f (List.mem_cons_self _ _))
    rw [List.map_cons, List.filterMap_cons, hs,
      ih (fun f hf => hall f (List.mem_cons_of_mem _ hf))]
    simp [pyOrZero, hs]

/-- C5 (amended): every query the optimizer emits for a city carries
`max_price = max(unique_prices)` — the maximum over all finite price values
contributed by the city's filters, where each filter contributes its
`min_price or 0` and, when set and non-zero, its `max_price` — and
`min_square` equal to the minimum of the filters' `min_square or 0` values.
When every filter declares a `min_square`, the latter is the minimum of the
declared min-square bounds; when every filter declares a non-zero `max_price`
at least as large as its own `min_price or 0`, the former is the maximum of
the declared max-price bounds, which is the original claim. -/
theorem optimize_query_price_bounds (fs : List FullUserFilter) (c : String)
    (rg : List Int) (mp ms : ℚ)
    (h : (c, rg, mp, ms) ∈ optimize_full_filters fs) :
    mp = listMaxQ (unique_prices (cityGroup c fs)) ∧
    ms = listMinQ ((cityGroup c fs).map (fun f => pyOrZero f.min_square)) ∧
    ((∀ f ∈ cityGroup c fs, f.min_square.isSome) →
      ms = listMinQ ((cityGroup c fs).filterMap (fun f => f.min_square))) ∧
    ((∀ f ∈ cityGroup c fs, ∃ m, f.max_price = some m ∧ m ≠ 0 ∧
        pyOrZero f.min_price ≤ m) →
      mp = listMaxQ ((cityGroup c fs).filterMap (fun f => f.max_price))) := by
  rw [mem_optimize_full_filters] at h
  obtain ⟨hc, hrg, hmp, hms⟩ := h
  have hgne := cityGroup_ne_nil fs c hc
  refine ⟨hmp, hms, ?_, ?_⟩
  · intro hall
    rw [hms]
    unfold city_min_square
    rw [map_pyOrZero_min_square_eq _ hall]
  · intro hall
    rw [hmp]
    have hspec := unique_prices_spec (cityGroup c fs) hgne
    have hmaxne : (cityGroup c fs).filterMap (fun f => f.max_price) ≠ [] := by
      obtain ⟨f0, g', hgeq⟩ := List.exists_cons_of_ne_nil hgne
      obtain ⟨m0, hm0, -, -⟩ := hall f0 (by rw [hgeq]; exact List.mem_cons_self _ _)
      exact List.ne_nil_of_mem (List.mem_filterMap.mpr
        ⟨f0, by rw [hgeq]; exact List.mem_cons_self _ _, hm0⟩)
    have hMmem := listMaxQ_mem _ hmaxne
    obtain ⟨fM, hfM, hfMmax⟩ := List.mem_filterMap.mp hMmem
    obtain ⟨m, hm, hm0, -⟩ := hall fM hfM
    have hmM : m = listMaxQ ((cityGroup c fs).filterMap (fun f => f.max_price)) := by
      rw [hm] at hfMmax
      exact Option.some_injective _ hfMmax
    have hMup : listMaxQ ((cityGroup c fs).filterMap (fun f => f.max_price)) ∈
        unique_prices (cityGroup c fs) := by
      refine (hspec.2 _).mpr ⟨fM, hfM, Or.inr ?_⟩
      rw [hm]
      simp only [pyMaxOrDrop, if_neg hm0]
      rw [hmM]
    have hub : ∀ x ∈ unique_prices (cityGroup c fs),
        x ≤ listMaxQ ((cityGroup c fs).filterMap (fun f => f.max_price)) := by
      intro x hx
      obtain ⟨f, hf, hcase⟩ := (hspec.2 x).mp hx
      obtain ⟨mf, hmf, hmf0, hmfge⟩ := hall f hf
      have hmfM : mf ≤ listMaxQ ((cityGroup c fs).filterMap (fun f => f.max_price)) :=
        le_listMaxQ _ _ (List.mem_filterMap.mpr ⟨f, hf, hmf⟩)
      rcases hcase with hcx | hcx
      · rw [hcx]
        exact le_trans hmfge hmfM
      · rw [hmf] at hcx
        simp only [pyMaxOrDrop, hmf0, if_neg hmf0] at hcx
        rw [← Option.some_injective _ hcx]
        exact hmfM
    exact le_antisymm (hub _ (listMaxQ_mem _ hspec.1))
      (le_listMaxQ _ _ hMup)

/-- Counterexample to C5 as stated: for two filters in "almaty" — one with
max-price bound 200 and min-square bound 30, the other with min-price bound
300 and neither a max-price nor a min-square bound — the optimizer emits a
query whose `max_price` is 300 (a min-price value, exceeding the maximum
max-price bound 200) and whose `min_square` is 0 (below the minimum declared
min-square bound 30). -/
theorem optimize_price_bounds_counterexample :
    optimize_full_filters
        [⟨some "almaty", none, some 200, some 30, some [1]⟩,
         ⟨some "almaty", some 300, none, none, some [1]⟩] =
      [("almaty", [1], 300, 0)] ∧
    ([(⟨some "almaty", none, some 200, some 30, some [1]⟩ : FullUserFilter),
      ⟨some "almaty", some 300, none, none, some [1]⟩].filterMap
        (fun f => f.max_price)) = [200] ∧
    ([(⟨some "almaty", none, some 200, some 30, some [1]⟩ : FullUserFilter),
      ⟨some "almaty", some 300, none, none, some [1]⟩].filterMap
        (fun f => f.min_square)) = [30] ∧
    (300 : ℚ) ≠ 200 ∧ (0 : ℚ) ≠ 30 := by
  refine ⟨?_, ?_, ?_, ?_, ?_⟩ <;> decide

/-- Witness for C5 on a group where every filter declares a non-zero max-price
bound at least its min-price and a min-square bound. -/
theorem optimize_query_price_bounds_witness :
    (("astana", ([1, 2] : List Int), (250 : ℚ), (30 : ℚ)) ∈ optimize_full_filters
        [⟨some "astana", some 100, some 200, some 30, some [1]⟩,
         ⟨some "astana", none, some 250, some 35, some [2]⟩]) ∧
    ((250 : ℚ) = listMaxQ (unique_prices (cityGroup "astana"
        [⟨some "astana", some 100, some 200, some 30, some [1]⟩,
         ⟨some "astana", none, some 250, some 35, some [2]⟩])) ∧
      (30 : ℚ) = listMinQ ((cityGroup "astana"
        [⟨some "astana", some 100, some 200, some 30, some [1]⟩,
         ⟨some "astana", none, some 250, some 35, some [2]⟩]).map
          (fun f => pyOrZero f.min_square)) ∧
      ((∀ f ∈ cityGroup "astana"
          [⟨some "astana", some 100, some 200, some 30, some [1]⟩,
           ⟨some "astana", none, some 250, some 35, some [2]⟩],
          f.min_square.isSome) →
        (30 : ℚ) = listMinQ ((cityGroup "astana"
          [⟨some "astana", some 100, some 200, some 30, some [1]⟩,
           ⟨some "astana", none, some 250, some 35, some [2]⟩]).filterMap
            (fun f => f.min_square))) ∧
      ((∀ f ∈ cityGroup "astana"
          [⟨some "astana", some 100, some 200, some 30, some [1]⟩,
           ⟨some "astana", none, some 250, some 35, some [2]⟩],
          ∃ m, f.max_price = some m ∧ m ≠ 0 ∧ pyOrZero f.min_price ≤ m) →
        (250 : ℚ) = listMaxQ ((cityGroup "astana"
          [⟨some "astana", some 100, some 200, some 30, some [1]⟩,
           ⟨some "astana", none, some 250, some 35, some [2]⟩]).filterMap
            (fun f => f.max_price)))) ∧
    listMaxQ ((cityGroup "astana"
        [⟨some "astana", some 100, some 200, some 30, some [1]⟩,
         ⟨some "astana", none, some 250, some 35, some [2]⟩]).filterMap
          (fun f => f.max_price)) = 250 ∧
    listMinQ ((cityGroup "astana"
        [⟨some "astana", some 100, some 200, some 30, some [1]⟩,
         ⟨some "astana", none, some 250, some 35, some [2]⟩]).filterMap
          (fun f => f.min_square)) = 30 :=
  ⟨by decide,
    optimize_query_price_bounds
      [⟨some "astana", some 100, some 200, some 30, some [1]⟩,
       ⟨some "astana", none, some 250, some 35, some [2]⟩] "astana" [1, 2] 250 30
      (by decide),
    by decide, by decide⟩

/-- The room-grouping loop, phrased as a two-at-a-time recursion: the fold
produces pairs of consecutive rooms with a possibly shorter trailing group. -/
def chunkPairs : List Int → List (List Int)
  | [] => []
  | [a] => [[a]]
  | a :: b :: rest => [a, b] :: chunkPairs rest

/-- The grouping fold, run from an arbitrary list of already-pushed groups,
produces exactly `chunkPairs` of the remaining rooms. -/
theorem foldl_room_step_loop : ∀ (l : List Int) (gs : List (List Int)),
    (if (l.foldl room_step (gs, [])).2.isEmpty then (l.foldl room_step (gs, [])).1
      else (l.foldl room_step (gs, [])).1 ++ [(l.foldl room_step (gs, [])).2]) =
      gs ++ chunkPairs l := by
  intro l
  induction l using chunkPairs.induct with
  | case1 => intro gs; simp [chunkPairs]
  | case2 a => intro gs; simp [room_step, chunkPairs]
  | case3 a b rest ih =>
    intro gs
    have hstep : (a :: b :: rest).foldl room_step (gs, []) =
        rest.foldl room_step (gs, [a, b]) := rfl
    cases rest with
    | nil => simp [hstep, chunkPairs]
    | cons r rest' =>
      have hswap : (r :: rest').foldl room_step (gs, [a, b]) =
          (r :: rest').foldl room_step (gs ++ [[a, b]], []) := rfl
      rw [hstep, hswap, ih (gs ++ [[a, b]])]
      simp [chunkPairs]

/-- `room_groups` computes `chunkPairs`. -/
theorem room_groups_eq_chunkPairs (l : List Int) : room_groups l = chunkPairs l := by
  have := foldl_room_step_loop l []
  simpa [room_groups] using this

/-- Concatenating the chunk groups recovers the input list. -/
theorem chunkPairs_flatten (l : List Int) : (chunkPairs l).flatten = l := by
  induction l using chunkPairs.induct <;> simp [chunkPairs, *]

/-- Every chunk group is non-empty and holds at most two values. -/
theorem chunkPairs_group_size (l : List Int) :
    ∀ g ∈ chunkPairs l, g ≠ [] ∧ g.length ≤ 2 := by
  induction l using chunkPairs.induct with
  | case1 => simp [chunkPairs]
  | case2 a => simp [chunkPairs]
  | case3 a b rest ih =>
    intro g hg
    rcases List.mem_cons.mp hg with h | h
    · subst h
      exact ⟨by simp, by simp⟩
    · exact ih g h

/-- Projecting the queries of one city key out of the optimizer's grouped
output yields exactly that city's room groups, provided the keys are distinct
and the key occurs. -/
theorem filterMap_city_flatMap (keys : List String) (c : String)
    (F : String → List (List Int)) (MP MS : String → ℚ) (hnd : keys.Nodup)
    (hc : c ∈ keys) :
    ((keys.flatMap (fun c' => (F c').map (fun rg => (c', rg, MP c', MS c')))).filterMap
      (fun q => if q.1 = c then some q.2.1 else none)) = F c := by
  induction keys with
  | nil => cases hc
  | cons k ks ih =>
    rw [List.flatMap_cons, List.filterMap_append, List.filterMap_map]
    rcases List.mem_cons.mp hc with hk | hk
    · subst hk
      have h1 : (F c).filterMap
          ((fun q : String × List Int × ℚ × ℚ =>
            if q.1 = c then some q.2.1 else none) ∘
            (fun rg => (c, rg, MP c, MS c))) = F c := by
        have hcomp : ((fun q : String × List Int × ℚ × ℚ =>
            if q.1 = c then some q.2.1 else none) ∘
            (fun rg : List Int => (c, rg, MP c, MS c))) = fun rg => some rg := by
          funext rg
          simp
        rw [hcomp]
        simp
      have h2 : (ks.flatMap (fun c' => (F c').map
          (fun rg => (c', rg, MP c', MS c')))).filterMap
          (fun q => if q.1 = c then some q.2.1 else none) = [] := by
        rw [List.filterMap_eq_nil_iff]
        intro q hq
        obtain ⟨c', hc', hq'⟩ := List.mem_flatMap.mp hq
        obtain ⟨rg, -, hrg⟩ := List.mem_map.mp hq'
        have hq1 : q.1 = c' := by rw [← hrg]
        have hne : c' ≠ c := by
          rintro rfl
          exact (List.nodup_cons.mp hnd).1 hc'
        rw [if_neg (hq1 ▸ hne)]
      rw [h1, h2, List.append_nil]
    · have hkc : k ≠ c := by
        rintro rfl
        exact (List.nodup_cons.mp hnd).1 hk
      have h1 : (F k).filterMap
          ((fun q : String × List Int × ℚ × ℚ =>
            if q.1 = c then some q.2.1 else none) ∘
            (fun rg => (k, rg, MP k, MS k))) = [] := by
        rw [List.filterMap_eq_nil_iff]
        intro rg hrg
        simp [Function.comp, hkc]
      rw [h1, List.nil_append]
      exact ih (List.nodup_cons.mp hnd).2 hk

/-- C6: for every city key, the optimizer's queries for that city carry room
groups that partition the ascending-sorted, duplicate-free union of all
requested room counts (a filter without a truthy room list contributing
`[1, 2, 3, 4]`) into consecutive groups of at most 2 values each, preserving
the union. -/
theorem optimize_room_partition (fs : List FullUserFilter) (c : String)
    (h : c ∈ cityKeys fs) :
    List.Sorted (· ≤ ·) (all_rooms_sorted (cityGroup c fs)) ∧
    (all_rooms_sorted (cityGroup c fs)).Nodup ∧
    (∀ x : Int, x ∈ all_rooms_sorted (cityGroup c fs) ↔
      ∃ f ∈ cityGroup c fs, x ∈ requested_rooms f) ∧
    (room_groups (all_rooms_sorted (cityGroup c fs))).flatten =
      all_rooms_sorted (cityGroup c fs) ∧
    (∀ g ∈ room_groups (all_rooms_sorted (cityGroup c fs)),
      g ≠ [] ∧ g.length ≤ 2) ∧
    (optimize_full_filters fs).filterMap
        (fun q => if q.1 = c then some q.2.1 else none) =
      room_groups (all_rooms_sorted (cityGroup c fs)) := by
  refine ⟨?_, ?_, ?_, ?_, ?_, ?_⟩
  · exact List.sorted_insertionSort _ _
  · exact ((List.perm_insertionSort _ _).nodup_iff).mpr (List.nodup_dedup _)
  · intro x
    rw [all_rooms_sorted, List.mem_insertionSort, List.mem_dedup, List.mem_flatMap]
  · rw [room_groups_eq_chunkPairs]
    exact chunkPairs_flatten _
  · rw [room_groups_eq_chunkPairs]
    exact chunkPairs_group_size _
  · exact filterMap_city_flatMap (cityKeys fs) c
      (fun c' => room_groups (all_rooms_sorted (cityGroup c' fs)))
      (fun c' => listMaxQ (unique_prices (cityGroup c' fs)))
      (fun c' => city_min_square (cityGroup c' fs)) (cityKeys_nodup fs) h

/-- Witness for C6 at the spec's five-filter example: room sets
`{1}, {2}, {1, 3}, {4}, {2, 3}` in one city produce exactly 2 queries with
room groups `[1, 2]` and `[3, 4]`. -/
theorem optimize_room_partition_witness :
    ("astana" ∈ cityKeys
        [⟨some "astana", none, none, none, some [1]⟩,
         ⟨some "astana", none, none, none, some [2]⟩,
         ⟨some "astana", none, none, none, some [1, 3]⟩,
         ⟨some "astana", none, none, none, some [4]⟩,
         ⟨some "astana", none, none, none, some [2, 3]⟩]) ∧
    (List.Sorted (· ≤ ·) (all_rooms_sorted (cityGroup "astana"
        [⟨some "astana", none, none, none, some [1]⟩,
         ⟨some "astana", none, none, none, some [2]⟩,
         ⟨some "astana", none, none, none, some [1, 3]⟩,
         ⟨some "astana", none, none, none, some [4]⟩,
         ⟨some "astana", none, none, none, some [2, 3]⟩])) ∧
      (all_rooms_sorted (cityGroup "astana"
        [⟨some "astana", none, none, none, some [1]⟩,
         ⟨some "astana", none, none, none, some [2]⟩,
         ⟨some "astana", none, none, none, some [1, 3]⟩,
         ⟨some "astana", none, none, none, some [4]⟩,
         ⟨some "astana", none, none, none, some [2, 3]⟩])).Nodup ∧
      (∀ x : Int, x ∈ all_rooms_sorted (cityGroup "astana"
          [⟨some "astana", none, none, none, some [1]⟩,
           ⟨some "astana", none, none, none, some [2]⟩,
           ⟨some "astana", none, none, none, some [1, 3]⟩,
           ⟨some "astana", none, none, none, some [4]⟩,
           ⟨some "astana", none, none, none, some [2, 3]⟩]) ↔
        ∃ f ∈ cityGroup "astana"
          [⟨some "astana", none, none, none, some [1]⟩,
           ⟨some "astana", none, none, none, some [2]⟩,
           ⟨some "astana", none, none, none, some [1, 3]⟩,
           ⟨some "astana", none, none, none, some [4]⟩,
           ⟨some "astana", none, none, none, some [2, 3]⟩], x ∈ requested_rooms f) ∧
      (room_groups (all_rooms_sorted (cityGroup "astana"
          [⟨some "astana", none, none, none, some [1]⟩,
           ⟨some "astana", none, none, none, some [2]⟩,
           ⟨some "astana", none, none, none, some [1, 3]⟩,
           ⟨some "astana", none, none, none, some [4]⟩,
           ⟨some "astana", none, none, none, some [2, 3]⟩]))).flatten =
        all_rooms_sorted (cityGroup "astana"
          [⟨some "astana", none, none, none, some [1]⟩,
           ⟨some "astana", none, none, none, some [2]⟩,
           ⟨some "astana", none, none, none, some [1, 3]⟩,
           ⟨some "astana", none, none, none, some [4]⟩,
           ⟨some "astana", none, none, none, some [2, 3]⟩]) ∧
      (∀ g ∈ room_groups (all_rooms_sorted (cityGroup "astana"
          [⟨some "astana", none, none, none, some [1]⟩,
           ⟨some "astana", none, none, none, some [2]⟩,
           ⟨some "astana", none, none, none, some [1, 3]⟩,
           ⟨some "astana", none, none, none, some [4]⟩,
           ⟨some "astana", none, none, none, some [2, 3]⟩])),
        g ≠ [] ∧ g.length ≤ 2) ∧
      (optimize_full_filters
          [⟨some "astana", none, none, none, some [1]⟩,
           ⟨some "astana", none, none, none, some [2]⟩,
           ⟨some "astana", none, none, none, some [1, 3]⟩,
           ⟨some "astana", none, none, none, some [4]⟩,
           ⟨some "astana", none, none, none, some [2, 3]⟩]).filterMap
          (fun q => if q.1 = "astana" then some q.2.1 else none) =
        room_groups (all_rooms_sorted (cityGroup "astana"
          [⟨some "astana", none, none, none, some [1]⟩,
           ⟨some "astana", none, none, none, some [2]⟩,
           ⟨some "astana", none, none, none, some [1, 3]⟩,
           ⟨some "astana", none, none, none, some [4]⟩,
           ⟨some "astana", none, none, none, some [2, 3]⟩]))) ∧
    (optimize_full_filters
        [⟨some "astana", none, none, none, some [1]⟩,
         ⟨some "astana", none, none, none, some [2]⟩,
         ⟨some "astana", none, none, none, some [1, 3]⟩,
         ⟨some "astana", none, none, none, some [4]⟩,
         ⟨some "astana", none, none, none, some [2, 3]⟩]).map
        (fun q => q.2.1) = [[1, 2], [3, 4]] ∧
    (optimize_full_filters
        [⟨some "astana", none, none, none, some [1]⟩,
         ⟨some "astana", none, none, none, some [2]⟩,
         ⟨some "astana", none, none, none, some [1, 3]⟩,
         ⟨some "astana", none, none, none, some [4]⟩,
         ⟨some "astana", none, none, none, some [2, 3]⟩]).length = 2 :=
  ⟨by decide,
    optimize_room_partition
      [⟨some "astana", none, none, none, some [1]⟩,
       ⟨some "astana", none, none, none, some [2]⟩,
       ⟨some "astana", none, none, none, some [1, 3]⟩,
       ⟨some "astana", none, none, none, some [4]⟩,
       ⟨some "astana", none, none, none, some [2, 3]⟩] "astana" (by decide),
    by decide, by decide⟩

/-- Concatenation of formatted listing texts, in order. -/
def concatTexts : List String → String
  | [] => ""
  | t :: ts => t ++ concatTexts ts

/-- The messages a run of the chunking loop sends, rendered from the groups of
listing texts each message carries: the first message is the starting string
followed by its group, every later message is `contHeader` followed by its
group. -/
def sentOf (cur : String) : List (List String) → List String
  | [] => []
  | g :: rest => (cur ++ concatTexts g) :: rest.map (fun g' => contHeader ++ concatTexts g')

/-- Structure of the chunking loop: the sent messages partition a prefix of
the texts into groups rendered behind their headers, and the final current
message carries the trailing group, which is non-empty whenever any text was
processed. -/
theorem chunkLoop_structure (maxLen : Nat) (texts : List String) :
    ∀ cur : String,
      ∃ (gs : List (List String)) (glast : List String),
        gs.flatten ++ glast = texts ∧
        (chunkLoop maxLen cur texts).1 = sentOf cur gs ∧
        (chunkLoop maxLen cur texts).2 =
          (if gs.isEmpty then cur else contHeader) ++ concatTexts glast ∧
        (texts ≠ [] → glast ≠ []) := by
  induction texts with
  | nil =>
    intro cur
    exact ⟨[], [], rfl, rfl, by simp [chunkLoop, concatTexts], by simp⟩
  | cons t rest ih =>
    intro cur
    by_cases hfit : cur.length + t.length ≤ maxLen
    · obtain ⟨gs', glast', hflat, hsent, hfin, hne⟩ := ih (cur ++ t)
      have hstep : chunkLoop maxLen cur (t :: rest) =
          chunkLoop maxLen (cur ++ t) rest := by
        simp only [chunkLoop]
        rw [if_pos hfit]
      cases gs' with
      | nil =>
        have hg : glast' = rest := by simpa using hflat
        subst hg
        refine ⟨[], t :: glast', by simp, ?_, ?_, by simp⟩
        · rw [hstep, hsent]
          rfl
        · rw [hstep, hfin]
          simp [concatTexts, String.append_assoc]
      | cons g gs'' =>
        have hrest : rest ≠ [] := by
          intro hr
          subst hr
          simp [chunkLoop, sentOf] at hsent
        refine ⟨(t :: g) :: gs'', glast', ?_, ?_, ?_, fun _ => hne hrest⟩
        · rw [← hflat]
          simp
        · rw [hstep, hsent]
          simp [sentOf, concatTexts, String.append_assoc]
        · rw [hstep, hfin]
          rfl
    · obtain ⟨gs', glast', hflat, hsent, hfin, hne⟩ := ih (contHeader ++ t)
      have hstep : chunkLoop maxLen cur (t :: rest) =
          (cur :: (chunkLoop maxLen (contHeader ++ t) rest).1,
            (chunkLoop maxLen (contHeader ++ t) rest).2) := by
        simp only [chunkLoop]
        rw [if_neg hfit]
      cases gs' with
      | nil =>
        have hg : glast' = rest := by simpa using hflat
        subst hg
        refine ⟨[[]], t :: glast', by simp, ?_, ?_, by simp⟩
        · rw [hstep]
          simp [hsent, sentOf, concatTexts]
        · rw [hstep]
          simp only [hfin]
          simp [concatTexts, String.append_assoc]
      | cons g gs'' =>
        have hrest : rest ≠ [] := by
          intro hr
          subst hr
          simp [chunkLoop, sentOf] at hsent
        refine ⟨[] :: (t :: g) :: gs'', glast', ?_, ?_, ?_, fun _ => hne hrest⟩
        · rw [← hflat]
          simp
        · rw [hstep]
          simp [hsent, sentOf, concatTexts, String.append_assoc]
        · rw [hstep]
          simp only [hfin]
          rfl

/-- Every message the chunking loop sends, and the final current message, stay
within the budget, provided the starting string does and every text fits
behind the continuation header. -/
theorem chunkLoop_length_bound (maxLen : Nat) (texts : List String) :
    ∀ cur : String, cur.length ≤ maxLen →
      (∀ t ∈ texts, contHeader.length + t.length ≤ maxLen) →
      (∀ m ∈ (chunkLoop maxLen cur texts).1, m.length ≤ maxLen) ∧
        (chunkLoop maxLen cur texts).2.length ≤ maxLen := by
  induction texts with
  | nil =>
    intro cur hcur _
    exact ⟨by simp [chunkLoop], by simpa [chunkLoop] using hcur⟩
  | cons t rest ih =>
    intro cur hcur hts
    by_cases hfit : cur.length + t.length ≤ maxLen
    · have hstep : chunkLoop maxLen cur (t :: rest) =
          chunkLoop maxLen (cur ++ t) rest := by
        simp only [chunkLoop]
        rw [if_pos hfit]
      rw [hstep]
      exact ih (cur ++ t) (by rw [String.length_append]; exact hfit)
        (fun t' ht' => hts t' (List.mem_cons_of_mem _ ht'))
    · have hstep : chunkLoop maxLen cur (t :: rest) =
          (cur :: (chunkLoop maxLen (contHeader ++ t) rest).1,
            (chunkLoop maxLen (contHeader ++ t) rest).2) := by
        simp only [chunkLoop]
        rw [if_neg hfit]
      rw [hstep]
      have hih := ih (contHeader ++ t)
        (by rw [String.length_append]; exact hts t (List.mem_cons_self _ _))
        (fun t' ht' => hts t' (List.mem_cons_of_mem _ ht'))
      refine ⟨?_, hih.2⟩
      intro m hm
      rcases List.mem_cons.mp hm with h | h
      · subst h
        exact hcur
      · exact hih.1 m h

/-- C8 (amended): for two or more non-empty formatted listing texts, when the
budget admits the first header and each text fits behind the continuation
header, the multi-listing room-sharing fanout sends messages that render a
partition of the texts into consecutive groups: every listing text lies whole
in exactly one message, every message after the first starts with the
continuation header, and no message exceeds the budget. -/
theorem room_sharing_chunking (maxLen : Nat) (texts : List String)
    (hcount : 2 ≤ texts.length)
    (hpos : ∀ t ∈ texts, 0 < t.length)
    (hhead : firstHeader.length ≤ maxLen)
    (hfit : ∀ t ∈ texts, contHeader.length + t.length ≤ maxLen) :
    ∃ gs : List (List String), gs ≠ [] ∧ gs.flatten = texts ∧
      sendRoomSharingChunks maxLen texts = sentOf firstHeader gs ∧
      (∀ m ∈ sendRoomSharingChunks maxLen texts, m.length ≤ maxLen) ∧
      ∀ m ∈ (sendRoomSharingChunks maxLen texts).tail, ∃ s, m = contHeader ++ s := by
  obtain ⟨gs₀, glast, hflat, hsent, hfin, hgl⟩ :=
    chunkLoop_structure maxLen texts firstHeader
  have htne : texts ≠ [] := by
    intro h
    rw [h] at hcount
    simp at hcount
  obtain ⟨t0, gl', rfl⟩ := List.exists_cons_of_ne_nil (hgl htne)
  have ht0 : t0 ∈ texts := by
    rw [← hflat]
    exact List.mem_append_right _ (List.mem_cons_self _ _)
  have ht0pos := hpos t0 ht0
  have hconcat : 0 < (concatTexts (t0 :: gl')).length := by
    simp only [concatTexts, String.length_append]
    omega
  have hfinlen : contHeader.length < (chunkLoop maxLen firstHeader texts).2.length := by
    rw [hfin, String.length_append]
    have hc : contHeader.length ≤
        (if gs₀.isEmpty = true then firstHeader else contHeader).length := by
      by_cases hgs : gs₀.isEmpty = true
      · simp only [hgs, if_true]
        decide
      · simp [hgs]
    omega
  have hfinne1 : (chunkLoop maxLen firstHeader texts).2 ≠ contHeader := by
    intro h
    rw [h] at hfinlen
    omega
  have hfinne2 : (chunkLoop maxLen firstHeader texts).2 ≠ staleHeader := by
    intro h
    rw [h] at hfinlen
    have hsc : staleHeader.length ≤ contHeader.length := by decide
    omega
  have hsend : sendRoomSharingChunks maxLen texts =
      (chunkLoop maxLen firstHeader texts).1 ++
        [(chunkLoop maxLen firstHeader texts).2] := by
    simp only [sendRoomSharingChunks]
    rw [beq_false_of_ne hfinne2, beq_false_of_ne hfinne1]
    simp
  refine ⟨gs₀ ++ [t0 :: gl'], by simp, ?_, ?_, ?_, ?_⟩
  · rw [List.flatten_append]
    simpa using hflat
  · rw [hsend, hsent, hfin]
    cases gs₀ with
    | nil => simp [sentOf]
    | cons g gs' => simp [sentOf, List.map_append]
  · intro m hm
    rw [hsend] at hm
    have hb := chunkLoop_length_bound maxLen texts firstHeader hhead hfit
    rcases List.mem_append.mp hm with h | h
    · exact hb.1 m h
    · rw [List.mem_singleton] at h
      subst h
      exact hb.2
  · intro m hm
    rw [hsend, hsent] at hm
    cases gs₀ with
    | nil =>
      simp [sentOf] at hm
    | cons g gs' =>
      simp only [sentOf, List.cons_append, List.tail_cons] at hm
      rcases List.mem_append.mp hm with h | h
      · obtain ⟨g', hg', rfl⟩ := List.mem_map.mp h
        exact ⟨concatTexts g', rfl⟩
      · rw [List.mem_singleton] at h
        subst h
        rw [hfin]
        exact ⟨concatTexts (t0 :: gl'), rfl⟩

/-- Counterexample to C8 as stated: with a budget of 100, a 30-character text
and a 150-character text, the fanout sends a message longer than 100 — a
single listing text exceeding the budget is placed unchecked behind the
continuation header. -/
theorem room_sharing_chunking_counterexample :
    ∃ m ∈ sendRoomSharingChunks 100
        ["aaaaaaaaaaaaaaaaaaaaaaaaaaaaaa",
         "bbbbbbbbbbbbbbbbbbbbbbbbbbbbbbbbbbbbbbbbbbbbbbbbbbbbbbbbbbbbbbbbbbbbbbbbbbbbbbbbbbbbbbbbbbbbbbbbbbbbbbbbbbbbbbbbbbbbbbbbbbbbbbbbbbbbbbbbbbbbbbbbbbbbbb"],
      100 < m.length := by
  decide

/-- Witness for C8 at a budget of 100 and five 30-character texts. -/
theorem room_sharing_chunking_witness :
    (2 ≤ (["aaaaaaaaaaaaaaaaaaaaaaaaaaaaaa", "aaaaaaaaaaaaaaaaaaaaaaaaaaaaaa",
        "aaaaaaaaaaaaaaaaaaaaaaaaaaaaaa", "aaaaaaaaaaaaaaaaaaaaaaaaaaaaaa",
        "aaaaaaaaaaaaaaaaaaaaaaaaaaaaaa"] : List String).length) ∧
    (∀ t ∈ (["aaaaaaaaaaaaaaaaaaaaaaaaaaaaaa", "aaaaaaaaaaaaaaaaaaaaaaaaaaaaaa",
        "aaaaaaaaaaaaaaaaaaaaaaaaaaaaaa", "aaaaaaaaaaaaaaaaaaaaaaaaaaaaaa",
        "aaaaaaaaaaaaaaaaaaaaaaaaaaaaaa"] : List String), 0 < t.length) ∧
    firstHeader.length ≤ 100 ∧
    (∀ t ∈ (["aaaaaaaaaaaaaaaaaaaaaaaaaaaaaa", "aaaaaaaaaaaaaaaaaaaaaaaaaaaaaa",
        "aaaaaaaaaaaaaaaaaaaaaaaaaaaaaa", "aaaaaaaaaaaaaaaaaaaaaaaaaaaaaa",
        "aaaaaaaaaaaaaaaaaaaaaaaaaaaaaa"] : List String),
      contHeader.length + t.length ≤ 100) ∧
    (∃ gs : List (List String), gs ≠ [] ∧
      gs.flatten = ["aaaaaaaaaaaaaaaaaaaaaaaaaaaaaa", "aaaaaaaaaaaaaaaaaaaaaaaaaaaaaa",
        "aaaaaaaaaaaaaaaaaaaaaaaaaaaaaa", "aaaaaaaaaaaaaaaaaaaaaaaaaaaaaa",
        "aaaaaaaaaaaaaaaaaaaaaaaaaaaaaa"] ∧
      sendRoomSharingChunks 100
          ["aaaaaaaaaaaaaaaaaaaaaaaaaaaaaa", "aaaaaaaaaaaaaaaaaaaaaaaaaaaaaa",
           "aaaaaaaaaaaaaaaaaaaaaaaaaaaaaa", "aaaaaaaaaaaaaaaaaaaaaaaaaaaaaa",
           "aaaaaaaaaaaaaaaaaaaaaaaaaaaaaa"] = sentOf firstHeader gs ∧
      (∀ m ∈ sendRoomSharingChunks 100
          ["aaaaaaaaaaaaaaaaaaaaaaaaaaaaaa", "aaaaaaaaaaaaaaaaaaaaaaaaaaaaaa",
           "aaaaaaaaaaaaaaaaaaaaaaaaaaaaaa", "aaaaaaaaaaaaaaaaaaaaaaaaaaaaaa",
           "aaaaaaaaaaaaaaaaaaaaaaaaaaaaaa"], m.length ≤ 100) ∧
      ∀ m ∈ (sendRoomSharingChunks 100
          ["aaaaaaaaaaaaaaaaaaaaaaaaaaaaaa", "aaaaaaaaaaaaaaaaaaaaaaaaaaaaaa",
           "aaaaaaaaaaaaaaaaaaaaaaaaaaaaaa", "aaaaaaaaaaaaaaaaaaaaaaaaaaaaaa",
           "aaaaaaaaaaaaaaaaaaaaaaaaaaaaaa"]).tail, ∃ s, m = contHeader ++ s) :=
  ⟨by decide, by decide, by decide, by decide,
    room_sharing_chunking 100
      ["aaaaaaaaaaaaaaaaaaaaaaaaaaaaaa", "aaaaaaaaaaaaaaaaaaaaaaaaaaaaaa",
       "aaaaaaaaaaaaaaaaaaaaaaaaaaaaaa", "aaaaaaaaaaaaaaaaaaaaaaaaaaaaaa",
       "aaaaaaaaaaaaaaaaaaaaaaaaaaaaaa"] (by decide) (by decide) (by decide) (by decide)⟩
